import Mathlib

set_option maxRecDepth 8000

/-!
Verification development for the credential-lifecycle and connection-pooling
subsystem of the mcp-server-salesforce repository.

The definitions below are a shallow embedding, translated statement by
statement from the TypeScript sources:
  - src/utils/errorHandler.ts        (error classifier)
  - src/utils/tokenManager.ts        (token store, refresh, expiry)
  - src/utils/connectionManager.ts   (connection pool, both iterations)
  - the PersonalOAuthHandler module  (OAuth flow orchestrator / state tracker)
  - src/tools/oauthMetadata.ts       (OAuth discovery document)

Modelling conventions: JavaScript timestamps (Date.getTime values) are Int
milliseconds; a JS Map is an association list with at most one entry per key
(set replaces, delete filters); asynchronous network calls are explicit
outcome parameters threaded into the embedded functions; console logging and
file persistence are side effects invisible to every claim and are dropped.
-/

namespace SfMcp

/-! Basic character/string helpers used by the embedding. -/

/-- Boolean prefix test on character lists. -/
def isPrefixOfL : List Char → List Char → Bool
  | [], _ => true
  | _ :: _, [] => false
  | a :: as, b :: bs => a == b && isPrefixOfL as bs

/-- Boolean infix (substring) test on character lists. -/
def isInfixOfL (needle : List Char) : List Char → Bool
  | [] => isPrefixOfL needle []
  | b :: bs => isPrefixOfL needle (b :: bs) || isInfixOfL needle bs

/-- The JavaScript String.prototype.includes test (substring containment). -/
def strContains (hay needle : String) : Bool :=
  isInfixOfL needle.toList hay.toList

/-- The JavaScript String.prototype.toLowerCase, on the ASCII range used by
the classifier's message probes. -/
def toLowerStr (s : String) : String :=
  String.mk (s.toList.map Char.toLower)

/-- Whitespace as removed by JavaScript String.prototype.trim (the code
points that occur in access-token inputs). -/
def isJsWhitespace (c : Char) : Bool :=
  c == ' ' || c == '\t' || c == '\n' || c == '\r'

/-- The JavaScript String.prototype.trim: strip whitespace from both ends. -/
def trimString (s : String) : String :=
  String.mk (((s.toList.dropWhile isJsWhitespace).reverse.dropWhile
    isJsWhitespace).reverse)

/-- Association-list read, mirroring JS Map.get (at most one entry per key
is maintained by mapSet/mapDelete). -/
def mapGet {α : Type} (l : List (String × α)) (k : String) : Option α :=
  match l.find? (fun p => p.1 == k) with
  | none => none
  | some p => some p.2

/-- Association-list write, mirroring JS Map.set: replace the existing entry
for the key, or append a fresh one. -/
def mapSet {α : Type} (l : List (String × α)) (k : String) (v : α) :
    List (String × α) :=
  match l with
  | [] => [(k, v)]
  | p :: rest => if p.1 == k then (k, v) :: rest else p :: mapSet rest k v

/-- Association-list delete, mirroring JS Map.delete. -/
def mapDelete {α : Type} (l : List (String × α)) (k : String) :
    List (String × α) :=
  l.filter (fun p => p.1 != k)

/-! Error model.

A raw failure value, as inspected by the classifier in
src/utils/errorHandler.ts.  The TypeScript code probes the dynamic fields
errorCode, statusCode, status, message, name and error of an arbitrary
thrown value; absent fields are modelled as none.  The field code carries
the ConnectionError.code property (which the classifier does not read). -/

structure SfError where
  errorCode : Option String := none
  statusCode : Option Nat := none
  status : Option Nat := none
  message : Option String := none
  name : Option String := none
  error : Option String := none
  code : Option String := none
  requiresReauth : Bool := false
deriving DecidableEq, Repr

/-- Embedding of isTokenExpiredError from src/utils/errorHandler.ts: an
error is an expired-session error when it carries a recognized session
error code, an HTTP 401 status, session/authentication-expiry message text,
or the jsforce INVALID_SESSION_ID name. -/
def isTokenExpiredError (e : SfError) : Bool :=
  if e.errorCode == some "INVALID_SESSION_ID"
      || e.errorCode == some "SESSION_NOT_FOUND"
      || e.errorCode == some "INVALID_SESSION" then true
  else if e.statusCode == some 401 || e.status == some 401 then true
  else
    let msg := toLowerStr (e.message.getD "")
    if strContains msg "session expired"
        || strContains msg "invalid session"
        || strContains msg "authentication failure"
        || strContains msg "session not found" then true
    else if e.name == some "INVALID_SESSION_ID" then true
    else false

/-- Embedding of isOAuthError from src/utils/errorHandler.ts. -/
def isOAuthError (e : SfError) : Bool :=
  let msg := toLowerStr (e.message.getD "")
  strContains msg "oauth"
    || strContains msg "access_denied"
    || strContains msg "invalid_grant"
    || strContains msg "invalid_client"
    || e.error == some "invalid_grant"
    || e.error == some "access_denied"

/-- A ConnectionError value as built by the ConnectionError class of
src/utils/errorHandler.ts: name is the literal ConnectionError, the message
and code are the constructor arguments. -/
def mkConnectionError (msg code : String) (reauth : Bool := false) : SfError :=
  { message := some msg, name := some "ConnectionError", code := some code,
    requiresReauth := reauth }

/-- The MissingCredentials-kind error thrown by
createUsernamePasswordConnection in src/utils/connectionManager.ts. -/
def missingCredentialsErr : SfError :=
  mkConnectionError
    "SALESFORCE_USERNAME and SALESFORCE_PASSWORD are required for Username/Password authentication"
    "MISSING_CREDENTIALS"

/-- A representative OAuthAuthorizationFailed-kind error as thrown by
PersonalOAuthHandler.handleCallback when the provider reports access_denied. -/
def oauthAuthorizationFailedErr : SfError :=
  mkConnectionError
    "OAuth authorization failed: access_denied - end-user denied authorization"
    "OAUTH_AUTHORIZATION_FAILED"

/-! Token data model (src/types/connection.ts) and the token store
(src/utils/tokenManager.ts). -/

/-- The TokenData interface from src/types/connection.ts.  Timestamps are
Int milliseconds; optional fields are Option. -/
structure TokenData where
  accessToken : Option String := none
  refreshToken : Option String := none
  instanceUrl : String := ""
  expiresAt : Option Int := none
  scope : Option String := none
  tokenType : Option String := none
  userId : Option String := none
deriving DecidableEq, Repr

/-- TOKEN_REFRESH_BUFFER_MS from src/utils/tokenManager.ts: five minutes in
milliseconds. -/
def TOKEN_REFRESH_BUFFER_MS : Int := 5 * 60 * 1000

/-- Embedding of TokenManager.isTokenExpired: with no recorded expiry the
token is treated as valid; otherwise it is expired from the instant
expiresAt minus the refresh buffer onward.  The ambient clock (Date.now) is
the explicit argument now. -/
def isTokenExpired (now : Int) (tokenData : TokenData) : Bool :=
  match tokenData.expiresAt with
  | none => false
  | some e => decide (e - TOKEN_REFRESH_BUFFER_MS ≤ now)

/-- The TokenManager's private tokens map: user id to token record. -/
def TokenStore : Type := List (String × TokenData)

/-- Embedding of TokenManager.getToken: a missing record and a record past
its buffered expiry both read back as null. -/
def getToken (now : Int) (store : TokenStore) (userId : String) :
    Option TokenData :=
  match mapGet store userId with
  | none => none
  | some td => if isTokenExpired now td then none else some td

/-- Embedding of TokenManager.storeToken restricted to its store effect:
the record is written under the user id with its userId field forced (the
scheduled-refresh timer and the file flush carry no information any claim
reads). -/
def storeToken (store : TokenStore) (userId : String) (td : TokenData) :
    TokenStore :=
  mapSet store userId { td with userId := some userId }

/-- Embedding of TokenManager.clearToken restricted to its store effect. -/
def clearToken (store : TokenStore) (userId : String) : TokenStore :=
  mapDelete store userId

/-! OAuth Exchange Client requests (TokenManager.makeTokenRequest and its
callers in src/utils/tokenManager.ts).  A network round trip is modelled by
an explicit response value. -/

/-- Parsed JSON body of a token-endpoint response, with the optional fields
the TypeScript code reads. -/
structure TokenBody where
  access_token : Option String := none
  refresh_token : Option String := none
  instance_url : Option String := none
  scope : Option String := none
  token_type : Option String := none
  expires_in : Option Int := none
  error : Option String := none
  error_description : Option String := none
deriving DecidableEq, Repr

/-- Outcome of one HTTPS round trip to the token endpoint: a response with
an HTTP status and parsed body, or a network-level failure. -/
inductive TokenEndpointResp where
  | respond (status : Nat) (body : TokenBody)
  | networkFailure (msg : String)
deriving DecidableEq, Repr

/-- Embedding of TokenManager.makeTokenRequest: a response resolves only
when the status is exactly 200; any other status rejects with the provider
error embedded in the message, and a transport error rejects as well. -/
def makeTokenRequest (resp : TokenEndpointResp) : Except String TokenBody :=
  match resp with
  | .respond status body =>
    if status == 200 then Except.ok body
    else Except.error ("Token request failed: " ++ (body.error.getD "undefined")
      ++ " - " ++ (body.error_description.getD "undefined"))
  | .networkFailure msg => Except.error ("Token request error: " ++ msg)

/-- Error kinds surfaced by TokenManager.refreshToken. -/
inductive RefreshErr where
  | noRefreshTokenAvailable
  | tokenRefreshFailed (msg : String)
deriving DecidableEq, Repr

/-- Embedding of TokenManager.refreshToken.  The current record is read
straight from the tokens map (not through the expiry-filtering getToken);
without a refresh token the call fails and leaves the store untouched; a
rejected token request clears the user's record before the
TokenRefreshFailed error propagates; a 200 response builds the replacement
record (keeping the old refresh token when the provider rotates none,
falling back to the passed instance URL, converting a truthy expires_in to
an absolute expiry) and stores it. -/
def refreshTokenOp (now : Int) (store : TokenStore) (userId : String)
    (instanceUrl : String) (resp : TokenEndpointResp) :
    Except RefreshErr TokenData × TokenStore :=
  match mapGet store userId with
  | none => (Except.error RefreshErr.noRefreshTokenAvailable, store)
  | some current =>
    match current.refreshToken with
    | none => (Except.error RefreshErr.noRefreshTokenAvailable, store)
    | some currentRefresh =>
      match makeTokenRequest resp with
      | Except.error msg =>
        (Except.error (RefreshErr.tokenRefreshFailed ("Token refresh failed: " ++ msg)),
          clearToken store userId)
      | Except.ok body =>
        let newTokenData : TokenData :=
          { accessToken := body.access_token,
            refreshToken := some ((body.refresh_token).getD currentRefresh),
            instanceUrl := (body.instance_url).getD instanceUrl,
            scope := body.scope,
            tokenType := some ((body.token_type).getD "Bearer"),
            userId := some userId,
            expiresAt :=
              match body.expires_in with
              | none => none
              | some n => if n == 0 then none else some (now + n * 1000) }
        (Except.ok newTokenData, storeToken store userId newTokenData)

/-! Token revocation (PersonalOAuthHandler.revokeUserTokens).  The two
remote revoke round trips are modelled by Boolean outcomes. -/

/-- Error kinds surfaced by PersonalOAuthHandler.revokeUserTokens. -/
inductive RevokeErr where
  | noTokensFound
  | tokenRevocationFailed
deriving DecidableEq, Repr

/-- Embedding of PersonalOAuthHandler.revokeUserTokens: look the record up
through getToken (NO_TOKENS_FOUND when absent or expired); revoke the
access token remotely, then the refresh token when one is stored; clear the
local record on success, and also clear it in the catch branch before the
TOKEN_REVOCATION_FAILED error propagates. -/
def revokeUserTokens (now : Int) (store : TokenStore) (userId : String)
    (accessRevokeOk refreshRevokeOk : Bool) :
    Except RevokeErr Unit × TokenStore :=
  match getToken now store userId with
  | none => (Except.error RevokeErr.noTokensFound, store)
  | some tokenData =>
    if accessRevokeOk == false then
      (Except.error RevokeErr.tokenRevocationFailed, clearToken store userId)
    else if tokenData.refreshToken.isSome && refreshRevokeOk == false then
      (Except.error RevokeErr.tokenRevocationFailed, clearToken store userId)
    else
      (Except.ok (), clearToken store userId)

/-! Bounded-retry execution wrapper (ConnectionManager.executeWithRetry in
src/utils/connectionManager.ts, identical loop in both iterations of the
file).  Each loop iteration obtains a connection and runs the operation;
its combined outcome for attempt number k is the explicit value
outcomes k. -/

/-- Outcome of one attempt (getConnection plus the operation run). -/
inductive AttemptOutcome where
  | succ (v : Nat)
  | fail (e : SfError)
deriving DecidableEq, Repr

/-- Observable events of the retry loop: an attempt ran, or the cached
connection was evicted and rebuilt via refreshConnection. -/
inductive RetryEv where
  | runOp (attempt : Nat)
  | refreshConn
deriving DecidableEq, Repr

/-- Placeholder error for the unreachable fuel-exhaustion branch of the
retry loop (the loop always returns or breaks before the counter passes
maxRetries). -/
def unreachableRetryErr : SfError := { message := some "unreachable" }

/-- Loop body of ConnectionManager.executeWithRetry, indexed by the attempt
counter; fuel is the number of loop iterations still permitted
(maxRetries + 1 - attempt at every call).  On failure, the loop retries
exactly when the classifier marks the failure expired-session and attempts
remain, evicting and rebuilding the connection first; otherwise it breaks
and rethrows the recorded error. -/
def executeWithRetryGo (outcomes : Nat → AttemptOutcome) (maxRetries : Nat) :
    Nat → Nat → Except SfError Nat × List RetryEv
  | _, 0 => (Except.error unreachableRetryErr, [])
  | attempt, fuel + 1 =>
    match outcomes attempt with
    | AttemptOutcome.succ v => (Except.ok v, [RetryEv.runOp attempt])
    | AttemptOutcome.fail e =>
      if isTokenExpiredError e && decide (attempt < maxRetries) then
        let r := executeWithRetryGo outcomes maxRetries (attempt + 1) fuel
        (r.1, RetryEv.runOp attempt :: RetryEv.refreshConn :: r.2)
      else
        (Except.error e, [RetryEv.runOp attempt])

/-- Embedding of ConnectionManager.executeWithRetry: run the loop from
attempt 0 with maxRetries + 1 permitted iterations. -/
def executeWithRetry (outcomes : Nat → AttemptOutcome) (maxRetries : Nat) :
    Except SfError Nat × List RetryEv :=
  executeWithRetryGo outcomes maxRetries 0 (maxRetries + 1)

/-- Number of operation runs recorded in an event list. -/
def countRuns (evs : List RetryEv) : Nat :=
  evs.countP (fun ev => match ev with | RetryEv.runOp _ => true | _ => false)

/-! Authorization Flow Orchestrator and Flow State Tracker
(PersonalOAuthHandler).  The pendingStates map tracks in-flight
authorization attempts keyed by the random state value. -/

/-- JavaScript short-circuit defaulting v OR dflt: the default is taken when
the value is undefined or the empty string (falsy). -/
def jsOrElse (v : Option String) (dflt : String) : String :=
  match v with
  | none => dflt
  | some s => if s == "" then dflt else s

/-- One pendingStates entry: creation timestamp and initiating user id. -/
structure PendingInfo where
  timestamp : Int
  userId : String
deriving DecidableEq, Repr

/-- The PersonalOAuthHandler's pendingStates map. -/
def PendingStates : Type := List (String × PendingInfo)

/-- STATE_TIMEOUT_MS from the PersonalOAuthHandler: ten minutes. -/
def STATE_TIMEOUT_MS : Int := 10 * 60 * 1000

/-- The OAuthCallback payload handed to handleCallback. -/
structure OAuthCallbackData where
  code : String
  state : String
  error : Option String := none
  error_description : Option String := none
deriving DecidableEq, Repr

/-- Error kinds thrown by PersonalOAuthHandler.handleCallback, one per
ConnectionError code in the source. -/
inductive CallbackErr where
  | oauthAuthorizationFailed
  | invalidState
  | stateExpired
  | codeExchangeFailed
deriving DecidableEq, Repr

/-- UserIdentity fields returned by getUserInfo in src/utils/userInfo.ts. -/
structure UserIdentity where
  userId : String
  username : String
  email : String
  organizationId : String
  displayName : String
deriving DecidableEq, Repr

/-- Embedding of generateUserId from src/utils/userInfo.ts: email when
truthy and not the unknown placeholder, else username under the same test,
else the provider subject id. -/
def generateUserId (u : UserIdentity) : String :=
  if u.email != "" && u.email != "unknown" then u.email
  else if u.username != "" && u.username != "unknown" then u.username
  else u.userId

/-- Outcomes of the two awaited collaborator calls inside handleCallback:
the code exchange against the token endpoint and the identity lookup. -/
structure CallbackExternal where
  exchange : Except String TokenData
  identity : Option UserIdentity

/-- Everything observable about one handleCallback invocation: the returned
or thrown value, the pendingStates map afterwards, whether the OAuth
Exchange Client was invoked, and the token store afterwards. -/
structure CallbackOutcome where
  result : Except CallbackErr String
  pendingAfter : PendingStates
  exchangeCalled : Bool
  storeAfter : TokenStore

/-- Embedding of PersonalOAuthHandler.handleCallback.  In source order: a
provider error parameter fails immediately with OAUTH_AUTHORIZATION_FAILED
(no state is touched, no exchange runs); an unknown state fails with
INVALID_STATE; a state past the ten-minute timeout is deleted and fails
with STATE_EXPIRED; otherwise the state is deleted and the code exchange
runs, followed by identity resolution, and the resulting record is stored
under the identity-derived user id.  A failure inside the try block
(exchange rejection or missing identity) surfaces as CODE_EXCHANGE_FAILED. -/
def handleCallback (pending : PendingStates) (store : TokenStore) (now : Int)
    (cb : OAuthCallbackData) (ext : CallbackExternal) : CallbackOutcome :=
  if cb.error.isSome then
    { result := Except.error CallbackErr.oauthAuthorizationFailed,
      pendingAfter := pending, exchangeCalled := false, storeAfter := store }
  else
    match mapGet pending cb.state with
    | none =>
      { result := Except.error CallbackErr.invalidState,
        pendingAfter := pending, exchangeCalled := false, storeAfter := store }
    | some info =>
      if decide (STATE_TIMEOUT_MS < now - info.timestamp) then
        { result := Except.error CallbackErr.stateExpired,
          pendingAfter := mapDelete pending cb.state, exchangeCalled := false,
          storeAfter := store }
      else
        let pendingClean := mapDelete pending cb.state
        match ext.exchange with
        | Except.error _ =>
          { result := Except.error CallbackErr.codeExchangeFailed,
            pendingAfter := pendingClean, exchangeCalled := true,
            storeAfter := store }
        | Except.ok tokenData =>
          match ext.identity with
          | none =>
            { result := Except.error CallbackErr.codeExchangeFailed,
              pendingAfter := pendingClean, exchangeCalled := true,
              storeAfter := store }
          | some userInfo =>
            let actualUserId := generateUserId userInfo
            { result := Except.ok actualUserId,
              pendingAfter := pendingClean, exchangeCalled := true,
              storeAfter := storeToken store actualUserId
                { tokenData with userId := some actualUserId } }

/-! Authorization-URL construction.  A URL query parameter is serialized by
the WHATWG application/x-www-form-urlencoded serializer used by
URL.searchParams: alphanumerics and * - . _ stay, space becomes +, every
other (ASCII) character becomes an uppercase percent escape. -/

/-- Lowercase hexadecimal digit, as produced by Buffer.toString with the
hex encoding. -/
def hexDigitChar (n : Nat) : Char :=
  ("0123456789abcdef".toList).getD n '0'

/-- Uppercase hexadecimal digit, as produced by the percent-encoder. -/
def hexUpperChar (n : Nat) : Char :=
  ("0123456789ABCDEF".toList).getD n '0'

/-- Hex encoding of a byte list (crypto.randomBytes(n).toString with hex). -/
def hexEncodeL : List Nat → List Char
  | [] => []
  | b :: bs => hexDigitChar (b / 16 % 16) :: hexDigitChar (b % 16) :: hexEncodeL bs

/-- Characters the form-urlencoded serializer leaves as they are. -/
def isFormSafe (c : Char) : Bool :=
  c.isAlphanum || c == '*' || c == '-' || c == '.' || c == '_'

/-- Percent escape of one ASCII character. -/
def percentEncodeChar (c : Char) : List Char :=
  ['%', hexUpperChar (c.toNat / 16 % 16), hexUpperChar (c.toNat % 16)]

/-- The form-urlencoded serializer over a character list (the parameter
values in this repository are ASCII, so no UTF-8 expansion arises). -/
def formEncodeL : List Char → List Char
  | [] => []
  | c :: cs =>
    (if isFormSafe c then [c]
     else if c == ' ' then ['+']
     else percentEncodeChar c) ++ formEncodeL cs

/-- String-level form-urlencoded serializer. -/
def formEncode (s : String) : String :=
  String.mk (formEncodeL s.toList)

/-- Serialize an ordered list of query parameters as URLSearchParams does. -/
def renderQuery (q : List (String × String)) : String :=
  String.intercalate "&" (q.map (fun kv => kv.1 ++ "=" ++ formEncode kv.2))

/-- AuthParams accepted by PersonalOAuthHandler.getAuthorizationUrl. -/
structure AuthParams where
  clientId : String
  redirectUri : String
  scope : Option String := none
  state : Option String := none
  prompt : Option String := none
  instanceUrl : Option String := none
deriving DecidableEq, Repr

/-- Embedding of PersonalOAuthHandler.getAuthorizationUrl: the authorize
endpoint of the instance (default login host), with response_type token,
the client id, the redirect URI, the scope (defaulting to the id api
refresh_token triple), then state and prompt when truthy, serialized in
insertion order. -/
def getAuthorizationUrlPOH (params : AuthParams) : String :=
  let baseUrl := jsOrElse params.instanceUrl "https://login.salesforce.com"
  let q : List (String × String) :=
    [("response_type", "token"),
     ("client_id", params.clientId),
     ("redirect_uri", params.redirectUri),
     ("scope", jsOrElse params.scope "id api refresh_token")]
    ++ (match params.state with
        | some s => if s == "" then [] else [("state", s)]
        | none => [])
    ++ (match params.prompt with
        | some p => if p == "" then [] else [("prompt", p)]
        | none => [])
  baseUrl ++ "/services/oauth2/authorize?" ++ renderQuery q

/-- Embedding of ConnectionManager.getAuthorizationUrl (first iteration of
src/utils/connectionManager.ts): response_type code, caller-supplied state,
and the fixed two-element scope api refresh_token, in that insertion
order. -/
def getAuthorizationUrlCM (clientId redirectUri state : String)
    (instanceUrl : Option String) : String :=
  let baseUrl := jsOrElse instanceUrl "https://login.salesforce.com"
  baseUrl ++ "/services/oauth2/authorize?" ++ renderQuery
    [("response_type", "code"),
     ("client_id", clientId),
     ("redirect_uri", redirectUri),
     ("state", state),
     ("scope", "api refresh_token")]

/-- Embedding of cleanupExpiredStates: drop every entry strictly older than
the ten-minute timeout. -/
def cleanupExpiredStates (now : Int) (pending : PendingStates) : PendingStates :=
  pending.filter (fun p => decide (now - p.2.timestamp ≤ STATE_TIMEOUT_MS))

/-- Embedding of PersonalOAuthHandler.initiateAuthFlow: the state is the
hex encoding of 32 random bytes (the randomness is the explicit argument),
it is recorded in pendingStates with the current timestamp, expired entries
are swept, and the authorization URL is built with the issued state. -/
def initiateAuthFlow (randomness : List Nat) (params : AuthParams)
    (userId : String) (now : Int) (pending : PendingStates) :
    String × String × PendingStates :=
  let state := String.mk (hexEncodeL randomness)
  let pending1 := mapSet pending state { timestamp := now, userId := userId }
  let pending2 := cleanupExpiredStates now pending1
  let authUrl := getAuthorizationUrlPOH { params with state := some state }
  (authUrl, state, pending2)

/-! OAuth discovery document (handleGetOAuthMetadata in
src/tools/oauthMetadata.ts). -/

/-- JSON values occurring in the discovery document.  An optStr none models
a JavaScript undefined field, which JSON.stringify omits from the
serialized document. -/
inductive JVal where
  | str (s : String)
  | arr (vs : List String)
  | optStr (v : Option String)
deriving DecidableEq, Repr

/-- Embedding of the metadata object built by handleGetOAuthMetadata, keys
in source order.  The three environment variables are the arguments. -/
def handleGetOAuthMetadata (envInstanceUrl envClientId envRedirectUri :
    Option String) : List (String × JVal) :=
  let instanceUrl := jsOrElse envInstanceUrl "https://login.salesforce.com"
  let redirectUri := jsOrElse envRedirectUri
    "https://login.salesforce.com/services/oauth2/callback"
  [("issuer", JVal.str instanceUrl),
   ("authorization_endpoint", JVal.str (instanceUrl ++ "/services/oauth2/authorize")),
   ("token_endpoint", JVal.str (instanceUrl ++ "/services/oauth2/token")),
   ("revocation_endpoint", JVal.str (instanceUrl ++ "/services/oauth2/revoke")),
   ("scopes_supported", JVal.arr ["id", "api", "refresh_token", "web", "full"]),
   ("response_types_supported", JVal.arr ["token"]),
   ("grant_types_supported", JVal.arr ["implicit"]),
   ("client_id", JVal.optStr envClientId),
   ("redirect_uri", JVal.str redirectUri),
   ("response_type", JVal.str "token"),
   ("scope", JVal.str "api id refresh_token")]

/-! Revised ConnectionManager (second iteration of
src/utils/connectionManager.ts): getConnection accepts either a user id or
a raw access token as its first argument. -/

/-- Embedding of ConnectionManager.isAccessToken: a string longer than 20
characters that starts with 00D or contains a dot (the startsWith and
includes probes are spelled out on the character list). -/
def isAccessToken (token : String) : Bool :=
  decide (20 < token.length)
    && (isPrefixOfL "00D".toList token.toList || token.toList.contains '.')

/-- Connection values as far as any claim observes them: a direct
access-token connection carrying its credentials, or a pooled connection
identified abstractly. -/
inductive ConnRes where
  | direct (accessToken : String) (instanceUrl : String)
  | pooled (connId : Nat)
  | failed (e : SfError)
deriving DecidableEq, Repr

/-- The two private maps of the revised ConnectionManager, with pooled
connections and in-flight creation promises identified abstractly by
number. -/
structure PoolMaps where
  connections : List (String × Nat)
  connectionPromises : List (String × Nat)
deriving DecidableEq, Repr

/-- Outcomes of the awaited collaborator calls on the pool path: the
validity probe for a cached connection and the result of building a fresh
one. -/
structure PoolExternal where
  isValid : Nat → Bool
  created : Except SfError Nat

/-- The INVALID_ACCESS_TOKEN error of createDirectAccessTokenConnection. -/
def invalidAccessTokenErr : SfError :=
  mkConnectionError "Invalid access token format provided" "INVALID_ACCESS_TOKEN"

/-- Embedding of ConnectionManager.createDirectAccessTokenConnection: the
instance URL comes from the environment (default login host); a token
shorter than 10 characters (which covers the falsy empty string) is
rejected; otherwise the connection carries the trimmed, URL-decoded token.
The decodeURIComponent builtin is the explicit function argument. -/
def createDirectAccessTokenConnection (decodeURIComponent : String → String)
    (envInstanceUrl : Option String) (accessToken : String) : ConnRes :=
  let instanceUrl := jsOrElse envInstanceUrl "https://login.salesforce.com"
  if decide (accessToken.length < 10) then ConnRes.failed invalidAccessTokenErr
  else ConnRes.direct (decodeURIComponent (trimString accessToken)) instanceUrl

/-- ConnectionType.User_Password, the default cache-key suffix. -/
def CONNECTION_TYPE_USER_PASSWORD : String := "User_Password"

/-- Pool path shared by both getConnection iterations: return the cached
connection when the validity probe accepts it; otherwise adopt an in-flight
creation promise when one exists; otherwise build a fresh connection,
cache it on success, and drop the transient promise entry either way. -/
def getConnectionPoolPath (effectiveUserId : String) (configType : Option String)
    (maps : PoolMaps) (ext : PoolExternal) : ConnRes × PoolMaps :=
  let cacheKey := effectiveUserId ++ "_" ++ (configType.getD CONNECTION_TYPE_USER_PASSWORD)
  let onMiss : ConnRes × PoolMaps :=
    match mapGet maps.connectionPromises cacheKey with
    | some p => (ConnRes.pooled p, maps)
    | none =>
      match ext.created with
      | Except.ok c =>
        (ConnRes.pooled c,
          { connections := mapSet maps.connections cacheKey c,
            connectionPromises := maps.connectionPromises })
      | Except.error e => (ConnRes.failed e, maps)
  match mapGet maps.connections cacheKey with
  | some c => if ext.isValid c then (ConnRes.pooled c, maps) else onMiss
  | none => onMiss

/-- Embedding of the revised ConnectionManager.getConnection: when the
first argument is truthy and looks like an access token, a direct
connection is built from it and the maps are never consulted; otherwise the
argument (or the default_user fallback) keys the pool path. -/
def getConnectionRevised (decodeURIComponent : String → String)
    (envInstanceUrl : Option String) (userIdOrAccessToken : Option String)
    (configType : Option String) (maps : PoolMaps) (ext : PoolExternal) :
    ConnRes × PoolMaps :=
  match userIdOrAccessToken with
  | some t =>
    if t != "" && isAccessToken t then
      (createDirectAccessTokenConnection decodeURIComponent envInstanceUrl t, maps)
    else
      getConnectionPoolPath (if t == "" then "default_user" else t) configType maps ext
  | none => getConnectionPoolPath "default_user" configType maps ext

/-! Interleaving model of concurrent getConnection calls for one
(ownerId, authMode) key, for the single-in-flight-builder guarantee.

Each caller executes getConnection; JavaScript's run-to-completion
scheduling makes everything between two awaits atomic.  In the region
where no connection is cached for the key, the code path
  read connections (miss) - read connectionPromises - set connectionPromises
contains no await, so it is one atomic step; the builder's completion
(resuming from await connectionPromise, caching the connection, and the
finally clause deleting the promise) is another; a caller that adopted an
existing promise resumes once the builder finished.  The scheduler is an
arbitrary list of caller indices. -/

/-- Program counter of one getConnection caller. -/
inductive CallerPc where
  | entry
  | building
  | waitingOn (b : Nat)
  | done
deriving DecidableEq, Repr

/-- Global simulation state: whether a connection is cached for the key,
which caller's creation promise is in the promise map, the list of callers
that ever started a session construction, and every caller's program
counter. -/
structure PoolSim where
  cached : Bool
  inFlight : Option Nat
  builders : List Nat
  pcs : Nat → CallerPc

/-- Pointwise function update for program counters. -/
def updPc (f : Nat → CallerPc) (i : Nat) (v : CallerPc) : Nat → CallerPc :=
  fun j => if j == i then v else f j

/-- One scheduled step of caller i.  At entry: a cached connection returns
it; an in-flight promise is adopted; otherwise the caller starts the single
construction and publishes its promise (atomically, as in the source).  A
building caller completes by caching the connection and retiring its
promise.  A waiting caller finishes once its builder has. -/
def poolStep (s : PoolSim) (i : Nat) : PoolSim :=
  match s.pcs i with
  | CallerPc.entry =>
    if s.cached then { s with pcs := updPc s.pcs i CallerPc.done }
    else
      match s.inFlight with
      | some b => { s with pcs := updPc s.pcs i (CallerPc.waitingOn b) }
      | none =>
        { cached := s.cached, inFlight := some i,
          builders := s.builders ++ [i], pcs := updPc s.pcs i CallerPc.building }
  | CallerPc.building =>
    { cached := true, inFlight := none, builders := s.builders,
      pcs := updPc s.pcs i CallerPc.done }
  | CallerPc.waitingOn b =>
    match s.pcs b with
    | CallerPc.done => { s with pcs := updPc s.pcs i CallerPc.done }
    | _ => s
  | CallerPc.done => s

/-- Initial state: nothing cached for the key, no in-flight creation, and
every (potential) caller about to enter getConnection. -/
def poolInit : PoolSim :=
  { cached := false, inFlight := none, builders := [],
    pcs := fun _ => CallerPc.entry }

/-- Run the simulation under an arbitrary schedule of caller indices. -/
def poolRun (sched : List Nat) : PoolSim :=
  sched.foldl poolStep poolInit

/-- Pool invariant: either nothing has happened yet (no construction, no
in-flight promise, nothing cached, every caller still at entry), or exactly
one construction was ever started, by caller b; the promise map only ever
holds b's creation, every waiting caller waits on b, only b can be mid
construction, and once the promise map is empty the connection is cached. -/
def poolInv (s : PoolSim) : Prop :=
  (s.builders = [] ∧ s.inFlight = none ∧ s.cached = false ∧
    ∀ i, s.pcs i = CallerPc.entry)
  ∨ (∃ b, s.builders = [b]
      ∧ (s.inFlight = some b ∨ (s.inFlight = none ∧ s.cached = true))
      ∧ (∀ i x, s.pcs i = CallerPc.waitingOn x → x = b)
      ∧ (∀ i, s.pcs i = CallerPc.building → i = b ∧ s.inFlight = some b))

/-! Helper lemmas about the embedded maps, expiry and hex/form encoders. -/

theorem mapGet_mapDelete_self {α : Type} (l : List (String × α)) (k : String) :
    mapGet (mapDelete l k) k = none := by
  induction l with
  | nil => rfl
  | cons p rest ih =>
    by_cases h : p.1 = k
    · simpa [mapDelete, mapGet, List.filter_cons, h] using ih
    · simpa [mapDelete, mapGet, List.filter_cons, List.find?_cons, h] using ih

theorem getToken_of_mapGet_none (now : Int) {store : TokenStore} {u : String}
    (h : mapGet store u = none) : getToken now store u = none := by
  unfold getToken
  rw [h]

theorem expired_of_getToken_none {now : Int} {store : TokenStore} {u : String}
    {td : TokenData} (hm : mapGet store u = some td)
    (hg : getToken now store u = none) : isTokenExpired now td = true := by
  by_cases h : isTokenExpired now td
  · exact h
  · exfalso
    unfold getToken at hg
    rw [hm] at hg
    simp [h] at hg

theorem isTokenExpired_mono {td : TokenData} {now now2 : Int} (hle : now ≤ now2)
    (h : isTokenExpired now td = true) : isTokenExpired now2 td = true := by
  unfold isTokenExpired at h ⊢
  cases hx : td.expiresAt with
  | none => rw [hx] at h; exact absurd h (by simp)
  | some e =>
    rw [hx] at h
    simp only [decide_eq_true_eq] at h ⊢
    omega

/-! Claim C4. -/

/-- C4: for every TokenRecord with expiresAt set, isTokenExpired is false at
every time strictly before expiresAt minus the five-minute refresh buffer
and true at and after that instant; with expiresAt unset it is false at
every time. -/
theorem C4_isTokenExpired_buffered (td : TokenData) (now : Int) :
    (∀ e, td.expiresAt = some e →
      (isTokenExpired now td = false ↔ now < e - TOKEN_REFRESH_BUFFER_MS)) ∧
    (td.expiresAt = none → isTokenExpired now td = false) := by
  constructor
  · intro e he
    simp only [isTokenExpired, he, decide_eq_false_iff_not, not_le]
  · intro he
    simp [isTokenExpired, he]

/-- Witness for C4 at a concrete record and clock. -/
theorem C4_isTokenExpired_buffered_witness :
    isTokenExpired 0 { expiresAt := some 1000000 } = false :=
  ((C4_isTokenExpired_buffered { expiresAt := some 1000000 } 0).1 1000000
    rfl).mpr (by decide)

/-! Claim C8 (corrected). -/

/-- Counterexample for C8 as stated: at a concrete configuration, the
discovery document built by handleGetOAuthMetadata has no
code_challenge_methods_supported field at all. -/
theorem C8_counterexample :
    mapGet (handleGetOAuthMetadata none (some "client-abc") none)
      "code_challenge_methods_supported" = none := rfl

/-- C8 amended: the discovery document contains issuer,
authorization_endpoint, token_endpoint, revocation_endpoint,
scopes_supported (an array), response_types_supported,
grant_types_supported and the deployment's client_id (the latter omitted
from the serialized JSON when the environment supplies none), but no
code_challenge_methods_supported field. -/
theorem C8_metadata_document_fields
    (envInstanceUrl envClientId envRedirectUri : Option String) :
    mapGet (handleGetOAuthMetadata envInstanceUrl envClientId envRedirectUri)
        "issuer" =
      some (JVal.str (jsOrElse envInstanceUrl "https://login.salesforce.com")) ∧
    mapGet (handleGetOAuthMetadata envInstanceUrl envClientId envRedirectUri)
        "authorization_endpoint" =
      some (JVal.str (jsOrElse envInstanceUrl "https://login.salesforce.com"
        ++ "/services/oauth2/authorize")) ∧
    mapGet (handleGetOAuthMetadata envInstanceUrl envClientId envRedirectUri)
        "token_endpoint" =
      some (JVal.str (jsOrElse envInstanceUrl "https://login.salesforce.com"
        ++ "/services/oauth2/token")) ∧
    mapGet (handleGetOAuthMetadata envInstanceUrl envClientId envRedirectUri)
        "revocation_endpoint" =
      some (JVal.str (jsOrElse envInstanceUrl "https://login.salesforce.com"
        ++ "/services/oauth2/revoke")) ∧
    mapGet (handleGetOAuthMetadata envInstanceUrl envClientId envRedirectUri)
        "scopes_supported" =
      some (JVal.arr ["id", "api", "refresh_token", "web", "full"]) ∧
    mapGet (handleGetOAuthMetadata envInstanceUrl envClientId envRedirectUri)
        "response_types_supported" = some (JVal.arr ["token"]) ∧
    mapGet (handleGetOAuthMetadata envInstanceUrl envClientId envRedirectUri)
        "grant_types_supported" = some (JVal.arr ["implicit"]) ∧
    mapGet (handleGetOAuthMetadata envInstanceUrl envClientId envRedirectUri)
        "client_id" = some (JVal.optStr envClientId) ∧
    mapGet (handleGetOAuthMetadata envInstanceUrl envClientId envRedirectUri)
        "code_challenge_methods_supported" = none :=
  ⟨rfl, rfl, rfl, rfl, rfl, rfl, rfl, rfl, rfl⟩

/-! Claim C3 (corrected). -/

/-- Counterexample for C3 as stated: a callback carrying a provider error
and a state that matches an outstanding pending entry raises
OAuthAuthorizationFailed while the pending entry is left in the tracker,
not deleted. -/
theorem C3_counterexample :
    (handleCallback [("S1", { timestamp := 0, userId := "u" })] [] 1000
        { code := "C1", state := "S1", error := some "access_denied" }
        { exchange := Except.error "unused", identity := none }).result =
      Except.error CallbackErr.oauthAuthorizationFailed ∧
    mapGet (handleCallback [("S1", { timestamp := 0, userId := "u" })] [] 1000
        { code := "C1", state := "S1", error := some "access_denied" }
        { exchange := Except.error "unused", identity := none }).pendingAfter
        "S1" =
      some { timestamp := 0, userId := "u" } :=
  ⟨rfl, rfl⟩

/-- C3 amended: when a callback carries a provider error parameter,
handleCallback raises OAuthAuthorizationFailed immediately without
consuming any Flow-Tracker state: the pendingStates map is unchanged (a
matching entry survives until the expiry sweep or a later matching
callback) and no code exchange is attempted. -/
theorem C3_provider_error_preserves_state (pending : PendingStates)
    (store : TokenStore) (now : Int) (cb : OAuthCallbackData)
    (ext : CallbackExternal) (e : String) (herr : cb.error = some e) :
    (handleCallback pending store now cb ext).result =
      Except.error CallbackErr.oauthAuthorizationFailed ∧
    (handleCallback pending store now cb ext).pendingAfter = pending ∧
    (handleCallback pending store now cb ext).exchangeCalled = false := by
  simp [handleCallback, herr]

/-- Witness for the amended C3 at a concrete callback. -/
theorem C3_provider_error_preserves_state_witness :
    (handleCallback [("S1", { timestamp := 0, userId := "u" })] [] 0
        { code := "C1", state := "S1", error := some "access_denied" }
        { exchange := Except.error "unused", identity := none }).pendingAfter =
      [("S1", { timestamp := 0, userId := "u" })] :=
  (C3_provider_error_preserves_state
    [("S1", { timestamp := 0, userId := "u" })] [] 0
    { code := "C1", state := "S1", error := some "access_denied" }
    { exchange := Except.error "unused", identity := none }
    "access_denied" rfl).2.1

/-! Claim C6. -/

/-- C6: for every user with a stored token record, revokeUserTokens leaves
a state in which getToken returns null, whether the remote revoke calls
succeeded or failed: the local record is always cleared (or, when it was
already past expiry, stays unreadable). -/
theorem C6_revoke_always_clears (now now2 : Int) (store : TokenStore)
    (userId : String) (accessRevokeOk refreshRevokeOk : Bool)
    (hstored : (mapGet store userId).isSome = true) (hle : now ≤ now2) :
    getToken now2
      (revokeUserTokens now store userId accessRevokeOk refreshRevokeOk).2
      userId = none := by
  obtain ⟨td, htd⟩ : ∃ td, mapGet store userId = some td := by
    cases h : mapGet store userId with
    | none => rw [h] at hstored; exact absurd hstored (by simp)
    | some td => exact ⟨td, rfl⟩
  cases hg : getToken now store userId with
  | none =>
    have h2 : (revokeUserTokens now store userId accessRevokeOk
        refreshRevokeOk).2 = store := by
      unfold revokeUserTokens
      rw [hg]
    rw [h2]
    have hexp2 : isTokenExpired now2 td = true :=
      isTokenExpired_mono hle (expired_of_getToken_none htd hg)
    simp [getToken, htd, hexp2]
  | some td2 =>
    have h2 : (revokeUserTokens now store userId accessRevokeOk
        refreshRevokeOk).2 = clearToken store userId := by
      unfold revokeUserTokens
      rw [hg]
      dsimp only
      split
      · rfl
      · split
        · rfl
        · rfl
    rw [h2]
    exact getToken_of_mapGet_none now2 (mapGet_mapDelete_self store userId)

/-- Witness for C6: a failed remote revoke still clears the record. -/
theorem C6_revoke_always_clears_witness :
    getToken 0
      (revokeUserTokens 0
        [("alice", { accessToken := some "a", refreshToken := some "rt" })]
        "alice" false false).2 "alice" = none :=
  C6_revoke_always_clears 0 0
    [("alice", { accessToken := some "a", refreshToken := some "rt" })]
    "alice" false false (by decide) (by decide)

/-! Claim C7. -/

/-- C7: when the refresh round trip to the token endpoint returns a non-2xx
response, refreshTokenOp surfaces the TokenRefreshFailed error and evicts
the stale record, so a subsequent getToken for that user returns null. -/
theorem C7_refresh_non2xx_evicts (now : Int) (store : TokenStore)
    (userId instanceUrl : String) (status : Nat) (body : TokenBody)
    (td : TokenData) (rt : String)
    (hcur : mapGet store userId = some td) (hrt : td.refreshToken = some rt)
    (hstatus : status < 200 ∨ 300 ≤ status) :
    (∃ msg, (refreshTokenOp now store userId instanceUrl
        (TokenEndpointResp.respond status body)).1 =
      Except.error (RefreshErr.tokenRefreshFailed msg)) ∧
    mapGet (refreshTokenOp now store userId instanceUrl
        (TokenEndpointResp.respond status body)).2 userId = none ∧
    getToken now (refreshTokenOp now store userId instanceUrl
        (TokenEndpointResp.respond status body)).2 userId = none := by
  have hs : (status == 200) = false := by
    rcases hstatus with h | h <;> simp <;> omega
  have hreq : makeTokenRequest (TokenEndpointResp.respond status body) =
      Except.error ("Token request failed: " ++ (body.error.getD "undefined")
        ++ " - " ++ (body.error_description.getD "undefined")) := by
    simp [makeTokenRequest, hs]
  have hshape : refreshTokenOp now store userId instanceUrl
      (TokenEndpointResp.respond status body) =
      (Except.error (RefreshErr.tokenRefreshFailed ("Token refresh failed: "
          ++ ("Token request failed: " ++ (body.error.getD "undefined")
            ++ " - " ++ (body.error_description.getD "undefined")))),
        clearToken store userId) := by
    simp [refreshTokenOp, hcur, hrt, hreq]
  rw [hshape]
  exact ⟨⟨_, rfl⟩, mapGet_mapDelete_self store userId,
    getToken_of_mapGet_none now (mapGet_mapDelete_self store userId)⟩

/-- Witness for C7: HTTP 400 with provider error invalid_grant. -/
theorem C7_refresh_non2xx_evicts_witness :
    mapGet (refreshTokenOp 0
        [("alice", { accessToken := some "a", refreshToken := some "rt" })]
        "alice" "https://login.salesforce.com"
        (TokenEndpointResp.respond 400
          { error := some "invalid_grant",
            error_description := some "expired access or refresh token" })).2
      "alice" = none :=
  (C7_refresh_non2xx_evicts 0
    [("alice", { accessToken := some "a", refreshToken := some "rt" })]
    "alice" "https://login.salesforce.com" 400
    { error := some "invalid_grant",
      error_description := some "expired access or refresh token" }
    { accessToken := some "a", refreshToken := some "rt" } "rt"
    rfl rfl (Or.inr (by decide))).2.1

/-! Claim C2. -/

theorem handleCallback_pendingAfter_matched (pending : PendingStates)
    (store : TokenStore) (now : Int) (cb : OAuthCallbackData)
    (ext : CallbackExternal) (info : PendingInfo) (he : cb.error = none)
    (hm : mapGet pending cb.state = some info) :
    (handleCallback pending store now cb ext).pendingAfter =
      mapDelete pending cb.state := by
  simp only [handleCallback, he, Option.isSome_none, Bool.false_eq_true,
    if_false, hm]
  split
  · rfl
  · cases hx : ext.exchange with
    | error m => rfl
    | ok tokenData =>
      cases hy : ext.identity with
      | none => rfl
      | some u => rfl

/-- C2: a callback's state is matched successfully at most once.  The code
exchange runs only when the callback carries no provider error parameter
and its state matches an outstanding pending entry; a callback without a
provider error whose state was never issued, or was already consumed,
raises the InvalidStateParameter error without invoking the OAuth Exchange
Client and leaves the tracker untouched; every matched state is removed
from the tracker, so a second callback carrying the same state raises
InvalidStateParameter with no code exchange attempted. -/
theorem C2_state_matched_at_most_once (pending : PendingStates)
    (store : TokenStore) (now now2 : Int) (cb cb2 : OAuthCallbackData)
    (ext ext2 : CallbackExternal) :
    ((handleCallback pending store now cb ext).exchangeCalled = true →
      cb.error = none ∧ (mapGet pending cb.state).isSome = true) ∧
    (cb.error = none → mapGet pending cb.state = none →
      (handleCallback pending store now cb ext).result =
        Except.error CallbackErr.invalidState ∧
      (handleCallback pending store now cb ext).exchangeCalled = false ∧
      (handleCallback pending store now cb ext).pendingAfter = pending) ∧
    (cb.error = none → (mapGet pending cb.state).isSome = true →
      mapGet (handleCallback pending store now cb ext).pendingAfter
        cb.state = none) ∧
    (cb.error = none → (mapGet pending cb.state).isSome = true →
      cb2.error = none → cb2.state = cb.state →
      (handleCallback (handleCallback pending store now cb ext).pendingAfter
          (handleCallback pending store now cb ext).storeAfter now2 cb2
          ext2).result = Except.error CallbackErr.invalidState ∧
      (handleCallback (handleCallback pending store now cb ext).pendingAfter
          (handleCallback pending store now cb ext).storeAfter now2 cb2
          ext2).exchangeCalled = false) := by
  have hconsumed : cb.error = none → (mapGet pending cb.state).isSome = true →
      mapGet (handleCallback pending store now cb ext).pendingAfter
        cb.state = none := by
    intro he hsome
    cases hm : mapGet pending cb.state with
    | none => rw [hm] at hsome; exact absurd hsome (by simp)
    | some info =>
      rw [handleCallback_pendingAfter_matched pending store now cb ext info
        he hm]
      exact mapGet_mapDelete_self pending cb.state
  refine ⟨?_, ?_, hconsumed, ?_⟩
  · intro hx
    cases he : cb.error with
    | some e =>
      exfalso
      simp [handleCallback, he] at hx
    | none =>
      refine ⟨rfl, ?_⟩
      cases hm : mapGet pending cb.state with
      | none =>
        exfalso
        simp [handleCallback, he, hm] at hx
      | some info => simp
  · intro he hm
    simp [handleCallback, he, hm]
  · intro he hsome he2 hstate
    have h2 : mapGet (handleCallback pending store now cb ext).pendingAfter
        cb2.state = none := by
      rw [hstate]
      exact hconsumed he hsome
    have hgen : ∀ (p : PendingStates) (s : TokenStore),
        mapGet p cb2.state = none →
        (handleCallback p s now2 cb2 ext2).result =
          Except.error CallbackErr.invalidState ∧
        (handleCallback p s now2 cb2 ext2).exchangeCalled = false := by
      intro p s hnone
      simp [handleCallback, he2, hnone]
    exact hgen _ _ h2

/-- Witness for C2: a callback whose state was never issued is rejected
with InvalidStateParameter and no exchange. -/
theorem C2_state_matched_at_most_once_witness :
    (handleCallback [] [] 0 { code := "C1", state := "S1" }
        { exchange := Except.error "unused", identity := none }).result =
      Except.error CallbackErr.invalidState :=
  ((C2_state_matched_at_most_once [] [] 0 0
    { code := "C1", state := "S1" } { code := "C1", state := "S1" }
    { exchange := Except.error "unused", identity := none }
    { exchange := Except.error "unused", identity := none }).2.1
    rfl rfl).1

/-! Claim C10. -/

/-- C10: a first argument longer than 20 characters that starts with 00D or
contains a dot is treated as a raw access token: the revised getConnection
returns a fresh direct connection built from the trimmed, URL-decoded token
and the configured instance URL, ignores the config argument, and leaves
the connection cache and the in-flight promise map untouched. -/
theorem C10_access_token_bypasses_pool (decodeURIComponent : String → String)
    (envInstanceUrl : Option String) (t : String) (configType : Option String)
    (maps : PoolMaps) (ext : PoolExternal)
    (hlen : 20 < t.length)
    (hform : isPrefixOfL "00D".toList t.toList = true ∨
      t.toList.contains '.' = true) :
    getConnectionRevised decodeURIComponent envInstanceUrl (some t)
        configType maps ext =
      (ConnRes.direct (decodeURIComponent (trimString t))
        (jsOrElse envInstanceUrl "https://login.salesforce.com"), maps) := by
  have hne : t ≠ "" := by
    intro h
    rw [h] at hlen
    exact absurd hlen (by decide)
  have htok : isAccessToken t = true := by
    unfold isAccessToken
    rcases hform with h | h
    · simp [hlen]
      left
      simpa using h
    · simp [hlen]
      right
      simpa using h
  have hlen10 : ¬ (t.length < 10) := by omega
  simp [getConnectionRevised, htok, hne, createDirectAccessTokenConnection,
    hlen10]

/-- Witness for C10 at a concrete session-id-shaped token. -/
theorem C10_access_token_bypasses_pool_witness :
    getConnectionRevised id none (some "00D000000000000000001") none
      { connections := [], connectionPromises := [] }
      { isValid := fun _ => true, created := Except.ok 0 } =
    (ConnRes.direct "00D000000000000000001" "https://login.salesforce.com",
      { connections := [], connectionPromises := [] }) :=
  (C10_access_token_bypasses_pool id none "00D000000000000000001" none
    { connections := [], connectionPromises := [] }
    { isValid := fun _ => true, created := Except.ok 0 }
    (by decide) (Or.inl (by decide))).trans (by decide)

/-! Claim C5 (corrected): hex/form-encoding lemmas, then the authorization
URL produced by the flow orchestrator. -/

theorem hexEncodeL_length (bs : List Nat) :
    (hexEncodeL bs).length = 2 * bs.length := by
  induction bs with
  | nil => rfl
  | cons b bs ih =>
    simp only [hexEncodeL, List.length_cons, ih]
    omega

theorem hexDigitChar_safe :
    ∀ n : Fin 16, isFormSafe (hexDigitChar n.val) = true := by decide

theorem hexDigitChar_memHex :
    ∀ n : Fin 16, hexDigitChar n.val ∈ "0123456789abcdef".toList := by decide

theorem formEncodeL_hexEncodeL (bs : List Nat) :
    formEncodeL (hexEncodeL bs) = hexEncodeL bs := by
  induction bs with
  | nil => rfl
  | cons b bs ih =>
    have h1 : isFormSafe (hexDigitChar (b / 16 % 16)) = true :=
      hexDigitChar_safe ⟨b / 16 % 16, Nat.mod_lt _ (by norm_num)⟩
    have h2 : isFormSafe (hexDigitChar (b % 16)) = true :=
      hexDigitChar_safe ⟨b % 16, Nat.mod_lt _ (by norm_num)⟩
    simp [hexEncodeL, formEncodeL, h1, h2, ih]

theorem hexEncodeL_mem (bs : List Nat) (c : Char) (hc : c ∈ hexEncodeL bs) :
    c ∈ "0123456789abcdef".toList := by
  induction bs with
  | nil => exact absurd hc (by simp [hexEncodeL])
  | cons b bs ih =>
    simp only [hexEncodeL, List.mem_cons] at hc
    rcases hc with h | h | h
    · rw [h]
      exact hexDigitChar_memHex ⟨b / 16 % 16, Nat.mod_lt _ (by norm_num)⟩
    · rw [h]
      exact hexDigitChar_memHex ⟨b % 16, Nat.mod_lt _ (by norm_num)⟩
    · exact ih h

theorem getAuthorizationUrlPOH_defaults (st : String)
    (hne : (st == "") = false) (hsafe : formEncode st = st) :
    getAuthorizationUrlPOH
      { clientId := "abc", redirectUri := "https://example.com/cb",
        state := some st } =
      "https://login.salesforce.com/services/oauth2/authorize?response_type=token&client_id=abc&redirect_uri=https%3A%2F%2Fexample.com%2Fcb&scope=id+api+refresh_token&state="
        ++ st := by
  have e1 : formEncode "token" = "token" := by decide
  have e2 : formEncode "abc" = "abc" := by decide
  have e3 : formEncode "https://example.com/cb" =
      "https%3A%2F%2Fexample.com%2Fcb" := by decide
  have e4 : formEncode "id api refresh_token" = "id+api+refresh_token" := by
    decide
  unfold getAuthorizationUrlPOH renderQuery jsOrElse
  simp only [hne, Bool.false_eq_true, if_false]
  apply String.ext
  simp [String.intercalate, String.intercalate.go, String.data_append, hsafe,
    e1, e2, e3, e4]

/-- Counterexample for C5 as stated: the URL issued by the orchestrator for
clientId abc, redirect https://example.com/cb and no explicit scope, at a
concrete 32-byte randomness, nowhere contains response_type=code (its
response type is the implicit-flow token). -/
theorem C5_counterexample :
    strContains
      ((initiateAuthFlow (List.replicate 32 171)
        { clientId := "abc", redirectUri := "https://example.com/cb" }
        "user" 0 []).1)
      "response_type=code" = false := by decide

/-- C5 amended: issuing an authorization URL with clientId abc, redirect
URI https://example.com/cb and no explicit scope produces exactly the
authorize URL whose query string carries response_type=token (the
orchestrator's implicit-flow response type), client_id=abc, the URL-encoded
redirect URI, scope=id+api+refresh_token (the default triple) and a state
parameter of exactly 64 lowercase-hexadecimal characters. -/
theorem C5_authorization_url_issued (randomness : List Nat) (userId : String)
    (now : Int) (pending : PendingStates) (hlen : randomness.length = 32) :
    (initiateAuthFlow randomness
      { clientId := "abc", redirectUri := "https://example.com/cb" }
      userId now pending).2.1.length = 64 ∧
    (∀ c ∈ (initiateAuthFlow randomness
      { clientId := "abc", redirectUri := "https://example.com/cb" }
      userId now pending).2.1.toList, c ∈ "0123456789abcdef".toList) ∧
    (initiateAuthFlow randomness
      { clientId := "abc", redirectUri := "https://example.com/cb" }
      userId now pending).1 =
      "https://login.salesforce.com/services/oauth2/authorize?response_type=token&client_id=abc&redirect_uri=https%3A%2F%2Fexample.com%2Fcb&scope=id+api+refresh_token&state="
        ++ (initiateAuthFlow randomness
          { clientId := "abc", redirectUri := "https://example.com/cb" }
          userId now pending).2.1 := by
  have hstate : (initiateAuthFlow randomness
      { clientId := "abc", redirectUri := "https://example.com/cb" }
      userId now pending).2.1 = String.mk (hexEncodeL randomness) := rfl
  have hlen64 : (String.mk (hexEncodeL randomness)).length = 64 := by
    show (hexEncodeL randomness).length = 64
    rw [hexEncodeL_length, hlen]
  have hne : (String.mk (hexEncodeL randomness) == "") = false := by
    apply beq_eq_false_iff_ne.mpr
    intro h
    rw [h] at hlen64
    exact absurd hlen64 (by decide)
  have hsafe : formEncode (String.mk (hexEncodeL randomness)) =
      String.mk (hexEncodeL randomness) := by
    unfold formEncode
    exact congrArg String.mk (formEncodeL_hexEncodeL randomness)
  refine ⟨?_, ?_, ?_⟩
  · rw [hstate]
    exact hlen64
  · intro c hc
    rw [hstate] at hc
    exact hexEncodeL_mem randomness c hc
  · rw [hstate]
    exact getAuthorizationUrlPOH_defaults (String.mk (hexEncodeL randomness))
      hne hsafe

/-- Witness for the amended C5 at a concrete randomness. -/
theorem C5_authorization_url_issued_witness :
    (initiateAuthFlow (List.replicate 32 171)
      { clientId := "abc", redirectUri := "https://example.com/cb" }
      "user" 0 []).2.1.length = 64 :=
  (C5_authorization_url_issued (List.replicate 32 171) "user" 0 []
    (by decide)).1

/-! Claim C1: bounded retry in executeWithRetry. -/

theorem countRuns_cons_runOp (a : Nat) (evs : List RetryEv) :
    countRuns (RetryEv.runOp a :: evs) = countRuns evs + 1 := by
  simp [countRuns, List.countP_cons]

theorem countRuns_cons_refresh (evs : List RetryEv) :
    countRuns (RetryEv.refreshConn :: evs) = countRuns evs := by
  simp [countRuns, List.countP_cons]

theorem executeWithRetryGo_count_le (outcomes : Nat → AttemptOutcome)
    (m : Nat) :
    ∀ fuel attempt, countRuns (executeWithRetryGo outcomes m attempt fuel).2
      ≤ fuel := by
  intro fuel
  induction fuel with
  | zero =>
    intro attempt
    simp [executeWithRetryGo, countRuns]
  | succ f ih =>
    intro attempt
    cases houtcome : outcomes attempt with
    | succ v =>
      simp [executeWithRetryGo, houtcome, countRuns, List.countP_cons]
    | fail e =>
      by_cases hg : (isTokenExpiredError e && decide (attempt < m)) = true
      · have hr : (executeWithRetryGo outcomes m attempt (f + 1)).2 =
            RetryEv.runOp attempt :: RetryEv.refreshConn ::
              (executeWithRetryGo outcomes m (attempt + 1) f).2 := by
          simp [executeWithRetryGo, houtcome, hg]
        rw [hr, countRuns_cons_runOp, countRuns_cons_refresh]
        have := ih (attempt + 1)
        omega
      · simp [executeWithRetryGo, houtcome, hg, countRuns, List.countP_cons]

theorem executeWithRetryGo_second_run (outcomes : Nat → AttemptOutcome)
    (m : Nat) :
    ∀ fuel attempt k,
      RetryEv.runOp (k + 1) ∈ (executeWithRetryGo outcomes m attempt fuel).2 →
      k + 1 = attempt ∨ (∃ e, outcomes k = AttemptOutcome.fail e ∧
        isTokenExpiredError e = true ∧ k < m) := by
  intro fuel
  induction fuel with
  | zero =>
    intro attempt k h
    exact absurd h (by simp [executeWithRetryGo])
  | succ f ih =>
    intro attempt k h
    cases houtcome : outcomes attempt with
    | succ v =>
      rw [show (executeWithRetryGo outcomes m attempt (f + 1)).2 =
          [RetryEv.runOp attempt] by simp [executeWithRetryGo, houtcome]] at h
      left
      have := List.mem_singleton.mp h
      injection this
    | fail e =>
      by_cases hg : (isTokenExpiredError e && decide (attempt < m)) = true
      · rw [show (executeWithRetryGo outcomes m attempt (f + 1)).2 =
            RetryEv.runOp attempt :: RetryEv.refreshConn ::
              (executeWithRetryGo outcomes m (attempt + 1) f).2 by
          simp [executeWithRetryGo, houtcome, hg]] at h
        rcases List.mem_cons.mp h with heq | h2
        · left; injection heq
        · rcases List.mem_cons.mp h2 with heq | h3
          · exact absurd heq (by simp)
          · rcases ih (attempt + 1) k h3 with heq | hgood
            · right
              have hk : k = attempt := by omega
              have hgood2 := (Bool.and_eq_true _ _).mp hg
              exact ⟨e, by rw [hk]; exact houtcome, hgood2.1,
                by have := of_decide_eq_true hgood2.2; omega⟩
            · right; exact hgood
      · rw [show (executeWithRetryGo outcomes m attempt (f + 1)).2 =
            [RetryEv.runOp attempt] by simp [executeWithRetryGo, houtcome,
              hg]] at h
        left
        have := List.mem_singleton.mp h
        injection this

/-- C1: for every operation and error sequence, executeWithRetry runs the
operation at most maxRetries + 1 times; attempt k + 1 happens only when
attempt k failed with an error the classifier marks expired-session (and
retries remained); the second run is preceded by an eviction/refresh of the
cached connection; a first failure not classified as expired-session is
propagated unchanged after a single run; MissingCredentials-kind and
OAuthAuthorizationFailed-kind errors are never classified expired-session,
hence never retried. -/
theorem C1_executeWithRetry_bounded_retry (outcomes : Nat → AttemptOutcome)
    (maxRetries : Nat) :
    countRuns (executeWithRetry outcomes maxRetries).2 ≤ maxRetries + 1 ∧
    (∀ k, RetryEv.runOp (k + 1) ∈ (executeWithRetry outcomes maxRetries).2 →
      ∃ e, outcomes k = AttemptOutcome.fail e ∧ isTokenExpiredError e = true ∧
        k < maxRetries) ∧
    (RetryEv.runOp 1 ∈ (executeWithRetry outcomes maxRetries).2 →
      ∃ rest, (executeWithRetry outcomes maxRetries).2 =
        RetryEv.runOp 0 :: RetryEv.refreshConn :: rest) ∧
    (∀ e, outcomes 0 = AttemptOutcome.fail e → isTokenExpiredError e = false →
      executeWithRetry outcomes maxRetries =
        (Except.error e, [RetryEv.runOp 0])) ∧
    isTokenExpiredError missingCredentialsErr = false ∧
    isTokenExpiredError oauthAuthorizationFailedErr = false := by
  refine ⟨?_, ?_, ?_, ?_, by decide, by decide⟩
  · exact executeWithRetryGo_count_le outcomes maxRetries (maxRetries + 1) 0
  · intro k h
    rcases executeWithRetryGo_second_run outcomes maxRetries (maxRetries + 1)
      0 k h with h0 | h1
    · omega
    · exact h1
  · intro h
    unfold executeWithRetry at h ⊢
    cases houtcome : outcomes 0 with
    | succ v =>
      rw [show (executeWithRetryGo outcomes maxRetries 0 (maxRetries + 1)).2 =
          [RetryEv.runOp 0] by simp [executeWithRetryGo, houtcome]] at h
      exact absurd (List.mem_singleton.mp h) (by simp)
    | fail e =>
      by_cases hg : (isTokenExpiredError e && decide (0 < maxRetries)) = true
      · exact ⟨(executeWithRetryGo outcomes maxRetries 1 maxRetries).2,
          by simp [executeWithRetryGo, houtcome, hg]⟩
      · rw [show (executeWithRetryGo outcomes maxRetries 0 (maxRetries + 1)).2
            = [RetryEv.runOp 0] by
          simp [executeWithRetryGo, houtcome, hg]] at h
        exact absurd (List.mem_singleton.mp h) (by simp)
  · intro e houtcome hexp
    unfold executeWithRetry
    have hg : (isTokenExpiredError e && decide (0 < maxRetries)) = false := by
      simp [hexp]
    simp [executeWithRetryGo, houtcome, hg]

/-- Witness for C1: a MissingCredentials failure on the first attempt is
propagated after exactly one run, with no retry. -/
theorem C1_executeWithRetry_bounded_retry_witness :
    executeWithRetry (fun _ => AttemptOutcome.fail missingCredentialsErr) 1 =
      (Except.error missingCredentialsErr, [RetryEv.runOp 0]) :=
  ((C1_executeWithRetry_bounded_retry
    (fun _ => AttemptOutcome.fail missingCredentialsErr) 1).2.2.2.1)
    missingCredentialsErr rfl (by decide)

/-! Claim C9: single in-flight builder in the connection pool. -/

theorem updPc_same (f : Nat → CallerPc) (i : Nat) (v : CallerPc) :
    updPc f i v i = v := by
  simp [updPc]

theorem updPc_other (f : Nat → CallerPc) (i : Nat) (v : CallerPc) (j : Nat)
    (h : j ≠ i) : updPc f i v j = f j := by
  simp [updPc, h]

theorem inv2_pcs_done (s : PoolSim) (b i : Nat)
    (hb : s.builders = [b])
    (hf : s.inFlight = some b ∨ (s.inFlight = none ∧ s.cached = true))
    (hw : ∀ j x, s.pcs j = CallerPc.waitingOn x → x = b)
    (hbd : ∀ j, s.pcs j = CallerPc.building → j = b ∧ s.inFlight = some b) :
    poolInv { s with pcs := updPc s.pcs i CallerPc.done } := by
  right
  refine ⟨b, hb, hf, ?_, ?_⟩
  · intro j x hj
    have hj2 : updPc s.pcs i CallerPc.done j = CallerPc.waitingOn x := hj
    by_cases hji : j = i
    · rw [hji, updPc_same] at hj2
      exact absurd hj2 (by simp)
    · rw [updPc_other _ _ _ _ hji] at hj2
      exact hw j x hj2
  · intro j hj
    have hj2 : updPc s.pcs i CallerPc.done j = CallerPc.building := hj
    by_cases hji : j = i
    · rw [hji, updPc_same] at hj2
      exact absurd hj2 (by simp)
    · rw [updPc_other _ _ _ _ hji] at hj2
      exact hbd j hj2

theorem poolStep_preserves_inv (s : PoolSim) (i : Nat) (h : poolInv s) :
    poolInv (poolStep s i) := by
  rcases h with ⟨hb, hf, hc, hpc⟩ | ⟨b, hb, hf, hw, hbd⟩
  · have hstep : poolStep s i =
        { cached := s.cached, inFlight := some i, builders := s.builders ++ [i],
          pcs := updPc s.pcs i CallerPc.building } := by
      simp [poolStep, hpc i, hc, hf]
    rw [hstep]
    right
    refine ⟨i, by rw [hb]; rfl, Or.inl rfl, ?_, ?_⟩
    · intro j x hj
      have hj2 : updPc s.pcs i CallerPc.building j = CallerPc.waitingOn x := hj
      by_cases hji : j = i
      · rw [hji, updPc_same] at hj2
        exact absurd hj2 (by simp)
      · rw [updPc_other _ _ _ _ hji, hpc j] at hj2
        exact absurd hj2 (by simp)
    · intro j hj
      have hj2 : updPc s.pcs i CallerPc.building j = CallerPc.building := hj
      by_cases hji : j = i
      · exact ⟨hji, rfl⟩
      · rw [updPc_other _ _ _ _ hji, hpc j] at hj2
        exact absurd hj2 (by simp)
  · cases hpci : s.pcs i with
    | entry =>
      by_cases hcached : s.cached = true
      · have hstep : poolStep s i =
            { s with pcs := updPc s.pcs i CallerPc.done } := by
          simp [poolStep, hpci, hcached]
        rw [hstep]
        exact inv2_pcs_done s b i hb hf hw hbd
      · have hfl : s.inFlight = some b := by
          rcases hf with hf1 | ⟨hf2, hc2⟩
          · exact hf1
          · exact absurd hc2 hcached
        have hstep : poolStep s i =
            { s with pcs := updPc s.pcs i (CallerPc.waitingOn b) } := by
          simp [poolStep, hpci, hcached, hfl]
        rw [hstep]
        right
        refine ⟨b, hb, hf, ?_, ?_⟩
        · intro j x hj
          have hj2 : updPc s.pcs i (CallerPc.waitingOn b) j =
              CallerPc.waitingOn x := hj
          by_cases hji : j = i
          · rw [hji, updPc_same] at hj2
            injection hj2 with hx
            exact hx.symm
          · rw [updPc_other _ _ _ _ hji] at hj2
            exact hw j x hj2
        · intro j hj
          have hj2 : updPc s.pcs i (CallerPc.waitingOn b) j =
              CallerPc.building := hj
          by_cases hji : j = i
          · rw [hji, updPc_same] at hj2
            exact absurd hj2 (by simp)
          · rw [updPc_other _ _ _ _ hji] at hj2
            exact hbd j hj2
    | building =>
      obtain ⟨hib, hfb⟩ := hbd i hpci
      have hstep : poolStep s i =
          { cached := true, inFlight := none, builders := s.builders,
            pcs := updPc s.pcs i CallerPc.done } := by
        simp [poolStep, hpci]
      rw [hstep]
      right
      refine ⟨b, hb, Or.inr ⟨rfl, rfl⟩, ?_, ?_⟩
      · intro j x hj
        have hj2 : updPc s.pcs i CallerPc.done j = CallerPc.waitingOn x := hj
        by_cases hji : j = i
        · rw [hji, updPc_same] at hj2
          exact absurd hj2 (by simp)
        · rw [updPc_other _ _ _ _ hji] at hj2
          exact hw j x hj2
      · intro j hj
        have hj2 : updPc s.pcs i CallerPc.done j = CallerPc.building := hj
        by_cases hji : j = i
        · rw [hji, updPc_same] at hj2
          exact absurd hj2 (by simp)
        · exfalso
          rw [updPc_other _ _ _ _ hji] at hj2
          obtain ⟨hjb, _⟩ := hbd j hj2
          exact hji (by rw [hjb, ← hib])
    | waitingOn b0 =>
      cases hpb : s.pcs b0 with
      | done =>
        have hstep : poolStep s i =
            { s with pcs := updPc s.pcs i CallerPc.done } := by
          simp [poolStep, hpci, hpb]
        rw [hstep]
        exact inv2_pcs_done s b i hb hf hw hbd
      | entry =>
        have hstep : poolStep s i = s := by simp [poolStep, hpci, hpb]
        rw [hstep]
        exact Or.inr ⟨b, hb, hf, hw, hbd⟩
      | building =>
        have hstep : poolStep s i = s := by simp [poolStep, hpci, hpb]
        rw [hstep]
        exact Or.inr ⟨b, hb, hf, hw, hbd⟩
      | waitingOn b1 =>
        have hstep : poolStep s i = s := by simp [poolStep, hpci, hpb]
        rw [hstep]
        exact Or.inr ⟨b, hb, hf, hw, hbd⟩
    | done =>
      have hstep : poolStep s i = s := by simp [poolStep, hpci]
      rw [hstep]
      exact Or.inr ⟨b, hb, hf, hw, hbd⟩

theorem poolRun_inv (sched : List Nat) : poolInv (poolRun sched) := by
  have hinit : poolInv poolInit := Or.inl ⟨rfl, rfl, rfl, fun _ => rfl⟩
  suffices h : ∀ s, poolInv s → poolInv (sched.foldl poolStep s) from
    h poolInit hinit
  induction sched with
  | nil => intro s hs; exact hs
  | cons a rest ih =>
    intro s hs
    exact ih (poolStep s a) (poolStep_preserves_inv s a hs)

/-- C9: in every interleaving of concurrent getConnection calls for one
key, starting from a state with no valid cached handle, at most one
session construction is ever started; every caller that observed an
in-progress creation observes THE one construction; the promise map's
in-flight entry, when present, is that same single builder; and as soon as
any caller has progressed at all, exactly one construction has run. -/
theorem C9_single_inflight_builder (sched : List Nat) :
    (poolRun sched).builders.length ≤ 1 ∧
    (∀ i x, (poolRun sched).pcs i = CallerPc.waitingOn x →
      (poolRun sched).builders = [x]) ∧
    (∀ x, (poolRun sched).inFlight = some x →
      (poolRun sched).builders = [x]) ∧
    ((∃ i, (poolRun sched).pcs i ≠ CallerPc.entry) →
      (poolRun sched).builders.length = 1) := by
  rcases poolRun_inv sched with ⟨hb, hf, hc, hpc⟩ | ⟨b, hb, hf, hw, hbd⟩
  · refine ⟨by simp [hb], ?_, ?_, ?_⟩
    · intro i x h
      rw [hpc i] at h
      exact absurd h (by simp)
    · intro x h
      rw [hf] at h
      exact absurd h (by simp)
    · rintro ⟨i, hi⟩
      exact absurd (hpc i) hi
  · refine ⟨by simp [hb], ?_, ?_, ?_⟩
    · intro i x h
      rw [hb, hw i x h]
    · intro x h
      rcases hf with hf1 | ⟨hf2, _⟩
      · rw [hf1] at h
        injection h with hx
        rw [hb, hx]
      · rw [hf2] at h
        exact absurd h (by simp)
    · intro _
      rw [hb]
      rfl

/-- Witness for C9: under the schedule 0, 1, 2 the second caller waits on
caller 0's creation, and exactly that one construction was started. -/
theorem C9_single_inflight_builder_witness :
    (poolRun [0, 1, 2]).builders = [0] :=
  (C9_single_inflight_builder [0, 1, 2]).2.1 1 0 (by decide)

end SfMcp
